import Mathlib

/-!
Shallow embedding of the simulation core of `src/assets/app.js`
(Atheer Test Lab, a browser-only mock payment-flow simulator).

Modelling conventions:
* JavaScript numbers are modelled as exact rationals (`ℚ`).  All the
  integer bit-level operations of the PRNG and the hash (`Math.imul`,
  `^`, `>>>`, `|`, `>>> 0`) act on 32-bit patterns, modelled as natural
  numbers below `2 ^ 32` with explicit `% 2 ^ 32` where JS wraps.
* `Date.now()` and the `Math.random()` draws used for token expiries are
  impure inputs of the program; they are passed explicitly (`now : ℚ`,
  `rnd : ℕ → ℚ`) so that every function is a total function of its
  arguments.
* The global `state.tokenPools` map is threaded explicitly: `riskCheck`
  takes the pool of the current scenario and returns the updated pool,
  and `simulateRun` returns the pool it leaves behind, which a caller
  passes to the next run of the same scenario id (the source keeps the
  pool in a process-wide map keyed by `scenario.id`, lines 155-161).
-/

namespace AtheerLab

/-- Wrap a natural number to a 32-bit pattern, the effect of the JS
unsigned 32-bit coercion (`>>> 0` and the implicit wrap of `+` feeding a
bitwise operator). -/
def u32 (n : ℕ) : ℕ := n % 4294967296

/-- JS `Math.imul`: 32-bit multiplication; on bit patterns it is plain
multiplication modulo `2 ^ 32`. -/
def imul32 (a b : ℕ) : ℕ := (a * b) % 4294967296

/-- app.js line 59: `clamp(n, lo, hi) = Math.max(lo, Math.min(hi, n))`. -/
def clamp (n lo hi : ℚ) : ℚ := max lo (min hi n)

/-- The same clamp applied to the integer-valued fields `n` and `seed`
(the UI declares them as integers; see spec section 3). -/
def clampInt (n lo hi : ℤ) : ℤ := max lo (min hi n)

/-- One step of the seeded generator `seededRand` (mulberry32,
app.js lines 35-43).  The state is the 32-bit pattern of `t`; the result
is `(new state, 32-bit output pattern)`.  The JS closure returns
`output / 4294967296`. -/
def mulberryStep (t : ℕ) : ℕ × ℕ :=
  let t1 := u32 (t + 0x6D2B79F5)
  let x1 := imul32 (t1 ^^^ (t1 >>> 15)) (1 ||| t1)
  let x2 := x1 ^^^ u32 (x1 + imul32 (x1 ^^^ (x1 >>> 7)) (61 ||| x1))
  (t1, x2 ^^^ (x2 >>> 14))

/-- One call of the generator: the value in `[0,1)` and the new state. -/
def draw (t : ℕ) : ℚ × ℕ :=
  let s := mulberryStep t
  ((s.2 : ℚ) / 4294967296, s.1)

/-- One character step of the FNV-1a style loop in `hashId`
(app.js lines 27-30): `h ^= c; h = Math.imul(h, 16777619)`. -/
def fnvStep (h c : ℕ) : ℕ := imul32 (h ^^^ c) 16777619

/-- The full hash loop of `hashId`, over the UTF-16 code units of the
input (all inputs here are ASCII, so code unit = code point). -/
def fnvHash (s : String) : ℕ :=
  s.data.foldl (fun h c => fnvStep h c.toNat) 2166136261

/-- Upper-case hex digit. -/
def hexDigit (n : ℕ) : Char :=
  if n = 0 then '0' else if n = 1 then '1' else if n = 2 then '2'
  else if n = 3 then '3' else if n = 4 then '4' else if n = 5 then '5'
  else if n = 6 then '6' else if n = 7 then '7' else if n = 8 then '8'
  else if n = 9 then '9' else if n = 10 then 'A' else if n = 11 then 'B'
  else if n = 12 then 'C' else if n = 13 then 'D' else if n = 14 then 'E'
  else 'F'

/-- Rendering `(h >>> 0).toString(16).toUpperCase().padStart(8, "0")` for a 32-bit
pattern: exactly the eight hex nibbles, most significant first. -/
def hex8 (n : ℕ) : String :=
  String.mk ([7, 6, 5, 4, 3, 2, 1, 0].map (fun i => hexDigit ((n >>> (4 * i)) % 16)))

/-- app.js lines 25-32: deterministic scenario id from a string. -/
def hashId (input : String) : String := "SCN-" ++ hex8 (fnvHash input)

/-- Raw scenario fields as read from the UI (app.js lines 106-115),
after the `Number(... || default)` conversions.  `mix` and `netType` are
the raw option strings, compared literally by the engine. -/
structure RawScenario where
  netType : String
  latency : ℚ
  jitter : ℚ
  loss : ℚ
  bw : ℚ
  mix : String
  n : ℤ
  seed : ℤ
deriving DecidableEq, Repr

/-- A normalized scenario: clamped fields plus the derived id
(app.js lines 117-124). -/
structure Scenario where
  netType : String
  latency : ℚ
  jitter : ℚ
  loss : ℚ
  bw : ℚ
  mix : String
  n : ℕ
  seed : ℕ
  id : String
deriving DecidableEq, Repr

/-- The clamp block of `getScenario` (app.js lines 117-122). -/
def clampFields (r : RawScenario) : RawScenario where
  netType := r.netType
  latency := clamp r.latency 0 5000
  jitter := clamp r.jitter 0 2000
  loss := clamp r.loss 0 30
  bw := clamp r.bw 64 1000000
  mix := r.mix
  n := clampInt r.n 10 200000
  seed := clampInt r.seed 1 2147483647

/-- Decimal rendering of a number for the canonical JSON string.  JS
prints numbers in decimal; integer values (the only ones exercised by
the theorems below) render identically, and non-integral rationals use
a fixed num/den rendering in place of double formatting.  The claims
depend only on this being a function of the value. -/
def qStr (q : ℚ) : String :=
  if q.den = 1 then toString q.num else toString q.num ++ "/" ++ toString q.den

/-- Serialization `JSON.stringify(scenario)` at app.js line 124: the id is assigned
only afterwards, so the serialized object holds exactly the eight
clamped fields, in insertion order. -/
def serializeScenario (r : RawScenario) : String :=
  "\x7b\"netType\":\"" ++ r.netType ++ "\",\"latency\":" ++ qStr r.latency ++
    ",\"jitter\":" ++ qStr r.jitter ++ ",\"loss\":" ++ qStr r.loss ++
    ",\"bw\":" ++ qStr r.bw ++ ",\"mix\":\"" ++ r.mix ++ "\",\"n\":" ++
    toString r.n ++ ",\"seed\":" ++ toString r.seed ++ "\x7d"

/-- Model of `getScenario` (app.js lines 105-126), the `normalize` of the spec: clamp
every numeric field, then derive the id from the clamped record. -/
def getScenario (r : RawScenario) : Scenario :=
  let c := clampFields r
  { netType := c.netType, latency := c.latency, jitter := c.jitter
    loss := c.loss, bw := c.bw, mix := c.mix
    n := c.n.toNat, seed := c.seed.toNat
    id := hashId (serializeScenario c) }

/-- Reading a normalized scenario back as raw input (re-running
`normalize` on its own output reads the same fields; the id is not an
input of `getScenario`). -/
def Scenario.toRaw (s : Scenario) : RawScenario where
  netType := s.netType
  latency := s.latency
  jitter := s.jitter
  loss := s.loss
  bw := s.bw
  mix := s.mix
  n := (s.n : ℤ)
  seed := (s.seed : ℤ)

/-- An offline token (app.js lines 131-144).  `expiresAt` is a
millisecond timestamp. -/
structure Token where
  id : String
  used : Bool
  expiresAt : ℚ
deriving DecidableEq, Repr

/-- A per-scenario token pool (app.js lines 146-151). -/
structure Pool where
  tokens : List Token
  cumulative : ℚ
  limit : ℚ
  threshold : ℚ
deriving DecidableEq, Repr

/-- Model of `initTokenPool` (app.js lines 139-153): 100 tokens `T1..T100`, each
expiring at `now + (3 + Math.random()) * 24*60*60*1000`; the
`Math.random()` draws are passed in as `rnd`. -/
def initTokenPool (rnd : ℕ → ℚ) (now : ℚ) : Pool where
  tokens := (List.range 100).map (fun i =>
    { id := "T" ++ toString (i + 1), used := false
      expiresAt := now + (3 + rnd i) * 24 * 60 * 60 * 1000 })
  cumulative := 0
  limit := 100
  threshold := 100

/-- The token scan predicate of app.js line 164:
`!t.used && t.expiresAt > Date.now()`. -/
def validAt (now : ℚ) (t : Token) : Bool := !t.used && decide (now < t.expiresAt)

/-- Setting `token.used = true` on the token found by the scan: the in-place
mutation of app.js line 177, as a positional update. -/
def markUsedAt : List Token → ℕ → List Token
  | [], _ => []
  | t :: ts, 0 => { t with used := true } :: ts
  | t :: ts, k + 1 => t :: markUsedAt ts k

/-- The outcome of one risk check.  The source returns a bare boolean
but logs the two rejection branches distinctly (app.js lines 166, 172);
the outcome records which branch produced the result. -/
inductive RiskOutcome
  | accepted
  | rejectedExhausted
  | rejectedLimit
deriving DecidableEq, Repr

/-- Model of `riskCheck` (app.js lines 155-181) on an existing pool.  The lazy
creation of a missing pool (lines 157-161, via the global map) is
modelled by the caller supplying `initTokenPool` output for a fresh
scenario id.  `Date.now()` is the explicit `now`. -/
def riskCheck (pool : Pool) (now amount : ℚ) : RiskOutcome × Pool :=
  match pool.tokens.findIdx? (validAt now) with
  | none => (RiskOutcome.rejectedExhausted, pool)
  | some i =>
    if pool.cumulative + amount > pool.limit then
      (RiskOutcome.rejectedLimit, pool)
    else
      (RiskOutcome.accepted,
        { pool with tokens := markUsedAt pool.tokens i
                    cumulative := pool.cumulative + amount })

/-- A sequence of `k` risk checks of amount 1 at a fixed time, returning
the outcomes in order together with the final pool. -/
def checksSeq (now : ℚ) : ℕ → Pool → List RiskOutcome × Pool
  | 0, pool => ([], pool)
  | k + 1, pool =>
    let r := riskCheck pool now 1
    let rest := checksSeq now k r.2
    (r.1 :: rest.1, rest.2)

/-- Fold an arbitrary sequence of `(now, amount)` risk checks over a
pool, keeping only the final pool state. -/
def applyChecks (pool : Pool) : List (ℚ × ℚ) → Pool
  | [] => pool
  | c :: cs => applyChecks (riskCheck pool c.1 c.2).2 cs

/-- The ascending numeric sort `[...arr].sort((x,y) => x-y)` of
app.js line 47 (for rationals, the sorted permutation is unique, so any
correct sort models it). -/
def sortAsc (l : List ℚ) : List ℚ := List.insertionSort (fun x y => x ≤ y) l

/-- Model of `percentile` (app.js lines 45-50): nearest-rank on the ascending
sort, index `ceil(p/100 * length) - 1` clamped into bounds, 0 for an
empty input. -/
def percentile (arr : List ℚ) (p : ℚ) : ℚ :=
  if arr.isEmpty then 0
  else
    let a := sortAsc arr
    let idx : ℤ := ⌈p / 100 * (a.length : ℚ)⌉ - 1
    a.getD (max 0 (min ((a.length : ℤ) - 1) idx)).toNat 0

/-- Model of `mean` (app.js lines 52-57): running sum divided by the length, 0
for an empty input. -/
def mean (arr : List ℚ) : ℚ :=
  if arr.isEmpty then 0 else arr.foldl (fun s x => s + x) 0 / (arr.length : ℚ)

/-- State-passing model of one call `percentile(arr, p)` that tracks the
array of the caller across the call: the spread `[...arr]` at app.js line 47
copies the array and `.sort` mutates only that copy, so the pair holds
the returned value together with the array of the caller after the call. -/
def percentileCall (arr : List ℚ) (p : ℚ) : ℚ × List ℚ :=
  if arr.isEmpty then (0, arr)
  else
    let copy := arr
    let a := sortAsc copy
    let idx : ℤ := ⌈p / 100 * (a.length : ℚ)⌉ - 1
    (a.getD (max 0 (min ((a.length : ℤ) - 1) idx)).toNat 0, arr)

/-- The run metrics (app.js lines 379-386). -/
structure Metrics where
  avg_ms : ℚ
  p50_ms : ℚ
  p95_ms : ℚ
  p99_ms : ℚ
  error_rate : ℚ
  retry_rate : ℚ
deriving DecidableEq, Repr

/-- Model of `baseProcessing` (app.js line 333): constant by mix. -/
def baseProcessing (mix : String) : ℚ :=
  if mix = "tap_to_pay" then 85 else if mix = "provisioning" then 160 else 120

/-- Model of `payloadKbits` (app.js line 348). -/
def payloadKbits (mix : String) : ℚ :=
  if mix = "provisioning" then 48 else 12

/-- The latency of an accepted trial before any retry/stress additions
(app.js lines 346-351): `t = baseProcessing + net + bwMs` with
`net = latency + (rand()*2 - 1)*jitter` and
`bwMs = (payloadKbits / bw) * 1000 * 8`; `jd` is the jitter draw. -/
def preRetryT (sc : Scenario) (jd : ℚ) : ℚ :=
  baseProcessing sc.mix + (sc.latency + (jd * 2 - 1) * sc.jitter) +
    (payloadKbits sc.mix / sc.bw) * 1000 * 8

/-- Model of `stress` (app.js line 365). -/
def stress (sc : Scenario) : ℚ :=
  clamp (sc.loss / 30 + sc.latency / 800 + sc.jitter / 400) 0 1

/-- The data one accepted trial produces (app.js lines 344-376). -/
structure TrialOut where
  sample : ℚ
  err : Bool
  drop : Bool
  prng : ℕ
deriving DecidableEq, Repr

/-- One accepted trial of the loop body (app.js lines 344-376), after
the risk check has passed: draws in source order (drop, jitter, then
either the second-attempt pair or the baseline fault draw, then the
stress draw and the optional extra-delay draw). -/
def simTrial (sc : Scenario) (p0 : ℕ) : TrialOut :=
  let s1 := draw p0
  let drop := decide (s1.1 < sc.loss / 100)
  let s2 := draw s1.2
  let t := preRetryT sc s2.1
  let afterDrop :=
    if drop then
      let s3 := draw s2.2
      let s4 := draw s3.2
      (t + (sc.latency + |(s4.1 * 2 - 1) * sc.jitter| + 40),
        decide (s3.1 < 12 / 100), s4.2)
    else
      let s3 := draw s2.2
      (t, decide (s3.1 < 8 / 1000), s3.2)
  let s5 := draw afterDrop.2.2
  let withStress :=
    if s5.1 < stress sc * (35 / 100) then
      let s6 := draw s5.2
      (afterDrop.1 + (35 + s6.1 * 90), s6.2)
    else (afterDrop.1, s5.2)
  { sample := max 0 withStress.1, err := afterDrop.2.1, drop := drop
    prng := withStress.2 }

/-- The accumulated output of the trial loop. -/
structure TrialsOut where
  samples : List ℚ
  errors : ℕ
  retries : ℕ
  pool : Pool
  prng : ℕ
deriving DecidableEq, Repr

/-- The trial loop of `simulateRun` (app.js lines 335-377): `k` trials,
each first consulting the risk engine with amount 1; a rejected trial
records the sentinel sample 0, counts an error and consumes no PRNG
draw; an accepted trial runs `simTrial`. -/
def simTrials (sc : Scenario) (now : ℚ) : ℕ → Pool → ℕ → TrialsOut
  | 0, pool, p => { samples := [], errors := 0, retries := 0, pool := pool, prng := p }
  | k + 1, pool, p =>
    match riskCheck pool now 1 with
    | (RiskOutcome.accepted, pool1) =>
      let tr := simTrial sc p
      let rest := simTrials sc now k pool1 tr.prng
      { samples := tr.sample :: rest.samples
        errors := (if tr.err then 1 else 0) + rest.errors
        retries := (if tr.drop then 1 else 0) + rest.retries
        pool := rest.pool, prng := rest.prng }
    | (_, pool1) =>
      let rest := simTrials sc now k pool1 p
      { samples := 0 :: rest.samples, errors := 1 + rest.errors
        retries := rest.retries, pool := rest.pool, prng := rest.prng }

/-- The value `simulateRun` returns (app.js line 391), together with the
pool state the run leaves in the global map. -/
structure SimResult where
  samples : List ℚ
  metrics : Metrics
  errors : ℕ
  retries : ℕ
  pool : Pool
deriving DecidableEq, Repr

/-- Model of `simulateRun` (app.js lines 317-392): seeds the PRNG from
`scenario.seed` (`seed >>> 0`), runs `scenario.n` trials against the
pool of the scenario, and summarizes the samples. -/
def simulateRun (sc : Scenario) (pool : Pool) (now : ℚ) : SimResult :=
  let out := simTrials sc now sc.n pool (u32 sc.seed)
  { samples := out.samples
    metrics :=
      { avg_ms := mean out.samples
        p50_ms := percentile out.samples 50
        p95_ms := percentile out.samples 95
        p99_ms := percentile out.samples 99
        error_rate := (out.errors : ℚ) / (sc.n : ℚ)
        retry_rate := (out.retries : ℚ) / (sc.n : ℚ) }
    errors := out.errors, retries := out.retries, pool := out.pool }

/-- A concrete normalized scenario used in the counterexamples: all raw
fields already lie inside their clamp ranges. -/
def sc0 : Scenario :=
  getScenario
    { netType := "public_internet", latency := 0, jitter := 0, loss := 0
      bw := 64, mix := "tap_to_pay", n := 51, seed := 42 }

/-- A fresh pool for `sc0`, created at time 0 with all the
`Math.random()` expiry draws equal to 0 (every token expires at
millisecond 259200000, so none is expired at time 0). -/
def pool0 : Pool := initTokenPool (fun _ => 0) 0

/-- The first run of `sc0` against a fresh pool. -/
def res1 : SimResult := simulateRun sc0 pool0 0

/-- The second run of `sc0`, against the pool state the first run left
in the global map (app.js keeps `state.tokenPools[scenario.id]` across
runs of the same scenario id). -/
def res2 : SimResult := simulateRun sc0 res1.pool 0

/-- The nearest-rank index the spec describes for `percentile`:
`ceil(p/100 * length) - 1`, clamped to the valid index range. -/
def specIdx (len : ℕ) (p : ℚ) : ℕ :=
  min (len - 1) (⌈p / 100 * (len : ℚ)⌉ - 1).toNat

/-- Default token used only as the `getD` fallback in statements about
token positions. -/
def dtok : Token := { id := "", used := false, expiresAt := 0 }

/-- A pool with no valid token whose limit is also already reached:
both rejection conditions hold at once. -/
def poolEx : Pool where
  tokens := [{ id := "T1", used := true, expiresAt := 259200000 }]
  cumulative := 100
  limit := 100
  threshold := 100

/-- A pool with a valid token but an exhausted cumulative budget. -/
def poolLim : Pool where
  tokens := [{ id := "T1", used := false, expiresAt := 259200000 }]
  cumulative := 100
  limit := 100
  threshold := 100

/-- A small pool for the budget-invariant witness. -/
def poolW : Pool where
  tokens := [{ id := "T1", used := false, expiresAt := 10 },
             { id := "T2", used := false, expiresAt := 10 }]
  cumulative := 0
  limit := 100
  threshold := 100

/-- Raw input with an out-of-range latency. -/
def rawA : RawScenario where
  netType := "public_internet"
  latency := -5
  jitter := 0
  loss := 0
  bw := 64
  mix := "tap_to_pay"
  n := 1000
  seed := 42

/-- A second raw input differing from `rawA` only in a value that the
clamp maps to the same result. -/
def rawB : RawScenario := { rawA with latency := -7 }

/-!  ## Helper lemmas -/

theorem length_markUsedAt : ∀ (ts : List Token) (i : ℕ),
    (markUsedAt ts i).length = ts.length := by
  intro ts
  induction ts with
  | nil => intro i; rfl
  | cons t ts ih =>
    intro i
    cases i with
    | zero => rfl
    | succ k => simp [markUsedAt, ih]

theorem markUsedAt_used_mono : ∀ (ts : List Token) (i j : ℕ),
    (ts.getD j dtok).used = true → ((markUsedAt ts i).getD j dtok).used = true := by
  intro ts
  induction ts with
  | nil => intro i j h; simpa using h
  | cons t ts ih =>
    intro i j h
    cases i with
    | zero =>
      cases j with
      | zero => simp [markUsedAt]
      | succ j1 => simpa [markUsedAt] using h
    | succ i1 =>
      cases j with
      | zero => simpa [markUsedAt] using h
      | succ j1 =>
        simp only [markUsedAt, List.getD_cons_succ] at h ⊢
        exact ih i1 j1 h

theorem findIdx?_none_aux {α : Type} (p : α → Bool) :
    ∀ (l : List α) (i : ℕ), (∀ x ∈ l, p x = false) →
      List.findIdx? p l i = none := by
  intro l
  induction l with
  | nil => intro i _; rfl
  | cons a l ih =>
    intro i h
    simp only [List.findIdx?, h a (by simp)]
    exact ih (i + 1) (fun x hx => h x (by simp [hx]))

/-- Effect of one risk check on the pool: cumulative does not decrease
(for a positive amount), stays below an unchanged limit, the token list
keeps its length, and used flags never revert. -/
theorem riskCheck_step (pool : Pool) (now amount : ℚ) (h0 : 0 < amount) :
    pool.cumulative ≤ ((riskCheck pool now amount).2).cumulative ∧
    (pool.cumulative ≤ pool.limit →
      ((riskCheck pool now amount).2).cumulative ≤ pool.limit) ∧
    ((riskCheck pool now amount).2).limit = pool.limit ∧
    ((riskCheck pool now amount).2).tokens.length = pool.tokens.length ∧
    ∀ j, (pool.tokens.getD j dtok).used = true →
      (((riskCheck pool now amount).2).tokens.getD j dtok).used = true := by
  unfold riskCheck
  rcases hf : pool.tokens.findIdx? (validAt now) with _ | i
  · simp
  · dsimp only
    by_cases hc : pool.cumulative + amount > pool.limit
    · rw [if_pos hc]; simp
    · rw [if_neg hc]
      push_neg at hc
      dsimp only
      refine ⟨by linarith, fun _ => by simpa using hc, rfl, ?_, ?_⟩
      · simpa using length_markUsedAt pool.tokens i
      · intro j hj
        simpa using markUsedAt_used_mono pool.tokens i j hj

/-- The trial loop produces exactly one sample per trial. -/
theorem length_simTrials (sc : Scenario) (now : ℚ) :
    ∀ (k : ℕ) (pool : Pool) (p : ℕ),
      (simTrials sc now k pool p).samples.length = k := by
  intro k
  induction k with
  | zero => intro pool p; rfl
  | succ k ih =>
    intro pool p
    rcases h : riskCheck pool now 1 with ⟨o, pool1⟩
    cases o <;> simp [simTrials, h, ih]

theorem clamp_clamp {α : Type} [LinearOrder α] (n lo hi : α) (h : lo ≤ hi) :
    max lo (min hi (max lo (min hi n))) = max lo (min hi n) := by
  have h1 : max lo (min hi n) ≤ hi := max_le h (min_le_left _ _)
  rw [min_eq_right h1, ← max_assoc, max_self]

theorem clamp_idem (n lo hi : ℚ) (h : lo ≤ hi) :
    clamp (clamp n lo hi) lo hi = clamp n lo hi := by
  unfold clamp; exact clamp_clamp n lo hi h

theorem clampInt_idem (n lo hi : ℤ) (h : lo ≤ hi) :
    clampInt (clampInt n lo hi) lo hi = clampInt n lo hi := by
  unfold clampInt; exact clamp_clamp n lo hi h

/-- Normalization is a function of the clamped fields alone. -/
theorem getScenario_congr (r1 r2 : RawScenario)
    (h : clampFields r1 = clampFields r2) : getScenario r1 = getScenario r2 := by
  unfold getScenario; rw [h]

/-- Re-reading a normalized scenario as raw input and clamping again
changes nothing. -/
theorem clampFields_toRaw (r : RawScenario) :
    clampFields ((getScenario r).toRaw) = clampFields r := by
  simp only [getScenario, Scenario.toRaw, clampFields, RawScenario.mk.injEq]
  have hn : (((clampInt r.n 10 200000).toNat : ℤ)) = clampInt r.n 10 200000 := by
    unfold clampInt; omega
  have hs : (((clampInt r.seed 1 2147483647).toNat : ℤ)) = clampInt r.seed 1 2147483647 := by
    unfold clampInt; omega
  refine ⟨trivial, ?_, ?_, ?_, ?_, trivial, ?_, ?_⟩
  · exact clamp_idem r.latency 0 5000 (by norm_num)
  · exact clamp_idem r.jitter 0 2000 (by norm_num)
  · exact clamp_idem r.loss 0 30 (by norm_num)
  · exact clamp_idem r.bw 64 1000000 (by norm_num)
  · rw [hn]; exact clampInt_idem r.n 10 200000 (by norm_num)
  · rw [hs]; exact clampInt_idem r.seed 1 2147483647 (by norm_num)

theorem foldl_add_eq_sum (l : List ℚ) (a : ℚ) :
    l.foldl (fun s x => s + x) a = a + l.sum := by
  induction l generalizing a with
  | nil => simp
  | cons x xs ih => simp [List.foldl_cons, ih, add_assoc]

theorem length_sortAsc (l : List ℚ) : (sortAsc l).length = l.length :=
  List.length_insertionSort _ l

theorem toNat_clamp (L : ℕ) (hL : 1 ≤ L) (d : ℤ) :
    (max 0 (min ((L : ℤ) - 1) d)).toNat = min (L - 1) d.toNat := by
  omega

/-- For a nonempty input, `percentile` reads the sorted list at the
clamped nearest-rank index of the spec, which is always in bounds. -/
theorem percentile_eq_get (s : List ℚ) (p : ℚ) (hs : s ≠ []) :
    ∃ h : specIdx s.length p < (sortAsc s).length,
      percentile s p = (sortAsc s).get ⟨specIdx s.length p, h⟩ := by
  have hlen : (sortAsc s).length = s.length := length_sortAsc s
  have hL : 1 ≤ s.length := List.length_pos.mpr hs
  have hidx : specIdx s.length p < (sortAsc s).length := by
    rw [hlen]; unfold specIdx; omega
  refine ⟨hidx, ?_⟩
  unfold percentile
  rw [if_neg (by simp [hs])]
  show (sortAsc s).getD
      (max 0 (min (((sortAsc s).length : ℤ) - 1)
        (⌈p / 100 * ((sortAsc s).length : ℚ)⌉ - 1))).toNat 0 = _
  conv_lhs => rw [hlen]
  rw [toNat_clamp s.length hL]
  have hb : min (s.length - 1) ((⌈p / 100 * (s.length : ℚ)⌉ - 1).toNat) =
      specIdx s.length p := rfl
  rw [hb, List.getD_eq_getElem _ _ hidx]
  simp [List.get_eq_getElem]

/-- Monotonicity of the nearest-rank index in `p`. -/
theorem specIdx_mono (len : ℕ) {p q : ℚ} (hpq : p ≤ q) :
    specIdx len p ≤ specIdx len q := by
  unfold specIdx
  have hceil : ⌈p / 100 * (len : ℚ)⌉ ≤ ⌈q / 100 * (len : ℚ)⌉ := by
    apply Int.ceil_le_ceil
    have hlen : (0 : ℚ) ≤ (len : ℚ) := Nat.cast_nonneg len
    have : p / 100 ≤ q / 100 := by linarith
    exact mul_le_mul_of_nonneg_right this hlen
  omega

/-- Monotonicity of `percentile` in the percentile argument. -/
theorem percentile_mono (s : List ℚ) {p q : ℚ} (hpq : p ≤ q) :
    percentile s p ≤ percentile s q := by
  by_cases hs : s = []
  · subst hs; simp [percentile]
  · obtain ⟨hp, ep⟩ := percentile_eq_get s p hs
    obtain ⟨hq, eq⟩ := percentile_eq_get s q hs
    rw [ep, eq]
    have hsorted : (sortAsc s).Sorted (fun x y => x ≤ y) :=
      List.sorted_insertionSort _ s
    exact hsorted.rel_get_of_le (by exact specIdx_mono s.length hpq)

/-!  ## Claim theorems -/

/-- C5: for every accepted trial, the pre-retry latency equals
`base + latency_ms + jitterOffset + bandwidthDelay`, with base 85 for
`tap_to_pay`, 160 for `provisioning`, else 120, the bandwidth delay
`(payloadKbits / bandwidth_kbps) * 8000` with payload 48 kbit for
`provisioning`, else 12, and `jitterOffset = (draw()*2 - 1)*jitter_ms`. -/
theorem preRetryT_spec_formula (sc : Scenario) (jd : ℚ) :
    preRetryT sc jd =
      (if sc.mix = "tap_to_pay" then 85 else if sc.mix = "provisioning" then 160 else 120)
        + sc.latency + (jd * 2 - 1) * sc.jitter
        + ((if sc.mix = "provisioning" then (48 : ℚ) else 12) / sc.bw) * 8000 := by
  unfold preRetryT baseProcessing payloadKbits
  ring

/-- C7: `percentile` returns 0 on empty input and otherwise the element
of the ascending sort at the clamped nearest-rank index
`ceil(p/100 * length) - 1` (no interpolation); `mean` returns 0 on empty
input and the arithmetic mean otherwise. -/
theorem percentile_mean_spec (s : List ℚ) (p : ℚ) :
    percentile [] p = 0 ∧ mean [] = 0 ∧
    (s ≠ [] → ∃ h : specIdx s.length p < (sortAsc s).length,
      percentile s p = (sortAsc s).get ⟨specIdx s.length p, h⟩) ∧
    (s ≠ [] → mean s = s.sum / (s.length : ℚ)) := by
  refine ⟨by simp [percentile], by simp [mean], fun hs => percentile_eq_get s p hs, fun hs => ?_⟩
  unfold mean
  rw [if_neg (by simp [hs]), foldl_add_eq_sum, zero_add]

/-- C7 witness: concrete instance with a nonempty list. -/
theorem percentile_mean_spec_witness :
    ([3, 1, 2] ≠ ([] : List ℚ)) ∧
    (∃ h : specIdx ([3, 1, 2] : List ℚ).length 50 < (sortAsc [3, 1, 2]).length,
      percentile [3, 1, 2] 50 = (sortAsc [3, 1, 2]).get ⟨specIdx ([3, 1, 2] : List ℚ).length 50, h⟩) ∧
    mean [2, 4] = (3 : ℚ) := by
  refine ⟨by simp, (percentile_mean_spec [3, 1, 2] 50).2.2.1 (by simp), ?_⟩
  rw [(percentile_mean_spec ([2, 4] : List ℚ) 50).2.2.2 (by simp)]
  with_unfolding_all decide

/-- C8: for fixed samples the percentile function is monotone across
the 50th, 95th and 99th percentiles. -/
theorem percentile_monotone_50_95_99 (s : List ℚ) :
    percentile s 50 ≤ percentile s 95 ∧ percentile s 95 ≤ percentile s 99 :=
  ⟨percentile_mono s (by norm_num), percentile_mono s (by norm_num)⟩

/-- C10: a percentile call never mutates the array of the caller: it sorts a
copy, and the sequence of the caller after the call is element-for-element
the one passed in, while the returned value is the usual percentile. -/
theorem percentileCall_no_mutation (arr : List ℚ) (p : ℚ) :
    (percentileCall arr p).2 = arr ∧ (percentileCall arr p).1 = percentile arr p := by
  by_cases h : arr.isEmpty <;> simp [percentileCall, percentile, h]

set_option maxRecDepth 8000

/-- C6: the samples sequence returned by `simulateRun` has length
exactly `scenario.n`: every trial appends exactly one sample, the
sentinel 0 on risk rejection and the computed latency otherwise. -/
theorem simulateRun_sample_count (sc : Scenario) (pool : Pool) (now : ℚ) :
    (simulateRun sc pool now).samples.length = sc.n := by
  unfold simulateRun
  exact length_simTrials sc now sc.n pool (u32 sc.seed)

/-- C3: the token scan happens before the cumulative-limit comparison,
so a pool without a valid token is reported as exhaustion even when the
limit would also be breached; and a cumulative-limit rejection leaves
the pool entirely unchanged. -/
theorem riskCheck_scan_first_and_limit_frame (pool : Pool) (now amount : ℚ) :
    ((∀ t ∈ pool.tokens, t.used = true ∨ t.expiresAt ≤ now) →
      pool.limit < pool.cumulative + amount →
      (riskCheck pool now amount).1 = RiskOutcome.rejectedExhausted) ∧
    ((riskCheck pool now amount).1 = RiskOutcome.rejectedLimit →
      (riskCheck pool now amount).2 = pool) := by
  constructor
  · intro hall _
    have hnone : pool.tokens.findIdx? (validAt now) = none := by
      apply findIdx?_none_aux
      intro t ht
      rcases hall t ht with h | h
      · simp [validAt, h]
      · simp [validAt, not_lt.mpr h]
    simp [riskCheck, hnone]
  · intro h
    unfold riskCheck at h ⊢
    rcases hf : pool.tokens.findIdx? (validAt now) with _ | i
    · rw [hf] at h
    · rw [hf] at h
      dsimp only at h ⊢
      by_cases hc : pool.cumulative + amount > pool.limit
      · simp [hc]
      · simp [hc] at h

/-- C3 witness: a pool that is both out of valid tokens and over its
limit rejects as exhaustion, and a limit rejection changes nothing. -/
theorem riskCheck_scan_first_and_limit_frame_witness :
    (∀ t ∈ poolEx.tokens, t.used = true ∨ t.expiresAt ≤ (0 : ℚ)) ∧
    poolEx.limit < poolEx.cumulative + 1 ∧
    (riskCheck poolEx 0 1).1 = RiskOutcome.rejectedExhausted ∧
    (riskCheck poolLim 0 1).1 = RiskOutcome.rejectedLimit ∧
    (riskCheck poolLim 0 1).2 = poolLim := by
  refine ⟨by with_unfolding_all decide, by with_unfolding_all decide,
    (riskCheck_scan_first_and_limit_frame poolEx 0 1).1
      (by with_unfolding_all decide) (by with_unfolding_all decide),
    by with_unfolding_all decide,
    (riskCheck_scan_first_and_limit_frame poolLim 0 1).2
      (by with_unfolding_all decide)⟩

/-- C4: across any sequence of risk checks of positive amounts the
cumulative field of the pool is non-decreasing, never exceeds the (unchanged)
limit, the token list keeps its length, and a used flag never flips
back, so no token is consumed twice.  Intermediate states are the
instances of this statement at the prefixes of the sequence. -/
theorem riskCheck_budget_invariant :
    ∀ (checks : List (ℚ × ℚ)) (pool : Pool),
      pool.cumulative ≤ pool.limit →
      (∀ c ∈ checks, 0 < c.2) →
      pool.cumulative ≤ (applyChecks pool checks).cumulative ∧
      (applyChecks pool checks).cumulative ≤ pool.limit ∧
      (applyChecks pool checks).limit = pool.limit ∧
      (applyChecks pool checks).tokens.length = pool.tokens.length ∧
      ∀ j, (pool.tokens.getD j dtok).used = true →
        ((applyChecks pool checks).tokens.getD j dtok).used = true := by
  intro checks
  induction checks with
  | nil => intro pool h1 _; exact ⟨le_refl _, h1, rfl, rfl, fun _ h => h⟩
  | cons c cs ih =>
    intro pool h1 hpos
    obtain ⟨s1, s2, s3, s4, s5⟩ := riskCheck_step pool c.1 c.2 (hpos c (by simp))
    obtain ⟨r1, r2, r3, r4, r5⟩ :=
      ih (riskCheck pool c.1 c.2).2 (by rw [s3]; exact s2 h1)
        (fun d hd => hpos d (by simp [hd]))
    have happ : applyChecks pool (c :: cs) = applyChecks (riskCheck pool c.1 c.2).2 cs := rfl
    rw [happ]
    refine ⟨le_trans s1 r1, ?_, ?_, ?_, ?_⟩
    · rw [s3] at r2; exact r2
    · rw [r3, s3]
    · rw [r4, s4]
    · intro j hj; exact r5 j (s5 j hj)

/-- C4 witness: two positive-amount checks against a small pool. -/
theorem riskCheck_budget_invariant_witness :
    poolW.cumulative ≤ poolW.limit ∧
    (∀ c ∈ [((0 : ℚ), (1 : ℚ)), ((0 : ℚ), (2 : ℚ))], 0 < c.2) ∧
    (applyChecks poolW [((0 : ℚ), (1 : ℚ)), ((0 : ℚ), (2 : ℚ))]).cumulative ≤ poolW.limit := by
  refine ⟨by with_unfolding_all decide, by with_unfolding_all decide,
    (riskCheck_budget_invariant [((0 : ℚ), (1 : ℚ)), ((0 : ℚ), (2 : ℚ))] poolW
      (by with_unfolding_all decide) (by with_unfolding_all decide)).2.1⟩

/-- C2 counterexample: against a fresh pool with limit 100 and no
expired token, the 101st of 101 sequential risk checks of amount 1 does
not reject via the cumulative-limit branch (it rejects via the
token-exhaustion branch, because each accepted check consumed one of
the 100 tokens). -/
theorem risk101_not_cumulative_limit :
    (checksSeq 0 101 pool0).1.getD 100 RiskOutcome.accepted ≠ RiskOutcome.rejectedLimit := by
  with_unfolding_all decide

/-- C2 amended: the first 100 checks are accepted and the 101st check
rejects via the token-exhaustion branch: each accepted check consumes a
token, so after 100 accepts no unused token remains and the token scan,
which runs before the limit comparison, fails first. -/
theorem risk101_first100_accept_then_exhaustion :
    (checksSeq 0 101 pool0).1.take 100 = List.replicate 100 RiskOutcome.accepted ∧
    (checksSeq 0 101 pool0).1.getD 100 RiskOutcome.accepted = RiskOutcome.rejectedExhausted := by
  with_unfolding_all decide

/-- C1 counterexample: two successive calls of `simulateRun` on the
same normalized scenario `sc0` (fields fixed, seed 42, n = 51) share
the persistent token pool, and the samples of the second call differ from
those of the first: the pool depletes during the second run, so its last
trials are risk-rejected with sentinel 0. -/
theorem simulateRun_twice_differs : res1.samples ≠ res2.samples := by
  with_unfolding_all decide

/-- C1 amended: `simulateRun` is a deterministic function of the
scenario (including its seed), the token-pool state, and the current
time: calls with equal pool states and equal times yield bit-identical
samples and metrics.  Two successive calls, however, share the
persistent per-scenario pool, so the second call can differ once the
pool depletes; within a fixed pool state and time, every stochastic
decision is driven by the seeded PRNG. -/
theorem simulateRun_deterministic (sc : Scenario) (p1 p2 : Pool) (t1 t2 : ℚ)
    (hp : p1 = p2) (ht : t1 = t2) :
    simulateRun sc p1 t1 = simulateRun sc p2 t2 := by
  rw [hp, ht]

/-- C1 witness: the determinism statement at a concrete scenario,
pool and time. -/
theorem simulateRun_deterministic_witness :
    pool0 = pool0 ∧ simulateRun sc0 pool0 0 = simulateRun sc0 pool0 0 :=
  ⟨rfl, simulateRun_deterministic sc0 pool0 pool0 0 0 rfl rfl⟩

/-- C9: clamping runs before hashing, so the normalized scenario — its
id included — is a function of the clamped field values alone, and
normalization is idempotent: re-normalizing a normalized scenario
changes nothing. -/
theorem getScenario_clamped_id_and_idem :
    (∀ r1 r2 : RawScenario, clampFields r1 = clampFields r2 →
      getScenario r1 = getScenario r2) ∧
    (∀ r : RawScenario, getScenario ((getScenario r).toRaw) = getScenario r) :=
  ⟨getScenario_congr, fun r => getScenario_congr _ r (clampFields_toRaw r)⟩

/-- C9 witness: two raw inputs whose fields agree after clamping get
the same normalized scenario, and normalizing is idempotent on a
concrete input. -/
theorem getScenario_clamped_id_and_idem_witness :
    clampFields rawA = clampFields rawB ∧
    getScenario rawA = getScenario rawB ∧
    getScenario ((getScenario rawA).toRaw) = getScenario rawA :=
  ⟨by with_unfolding_all decide,
    getScenario_clamped_id_and_idem.1 rawA rawB (by with_unfolding_all decide),
    getScenario_clamped_id_and_idem.2 rawA⟩

end AtheerLab
